import Mathlib

/-!
# Difficulty arithmetic of `src/cryptonote_core/difficulty.cpp`

A shallow embedding of the proof-of-work difficulty code: the portable 64x64 -> 128 bit
multiplication `mul`, the carry predicates `cadd` and `cadc`, the hash test `check_hash`
and the two retarget generations `next_difficulty_v1`, `next_difficulty_v2` with their
dispatcher `next_difficulty`.

Conventions of the embedding.

* `uint64_t` and `size_t` values are natural numbers below `2 ^ 64`; every C++ operation
  that can wrap is followed by `wrap64`.
* `std::vector<uint64_t>` is `List Nat`; `v[i]` is `v.getD i 0`, `v.front ()` is
  `v.headD 0`, `v.back ()` is `v.getLastD 0` (the indices used are always in range).
* `assert` is a fault: a function that can trip an assertion, or divide by zero, returns
  `Except fault Nat`.
* The configuration constants `CRYPTONOTE_DIFFICULTY_WINDOW` and
  `CRYPTONOTE_HARDFORK_HEIGHT_1` and the helper `swap64le` are declared outside the files
  at hand; they are parameters of the functions that use them.
-/

namespace crypto

/-- The 32-byte `crypto::hash`, seen the way `check_hash` reads it: as the four 64-bit
words `((const uint64_t *) &hash)[0 .. 3]`. -/
structure hash where
  w0 : Nat
  w1 : Nat
  w2 : Nat
  w3 : Nat

end crypto

namespace cryptonote

/-- Reduction of a natural number to the range of `uint64_t`. -/
def wrap64 (x : Nat) : Nat := x % 2 ^ 64

/-- Result of one run of the portable `mul`: the two output words, and the exact
(unreduced) value of every sum and product the routine evaluates in 64-bit arithmetic,
in program order. -/
structure MulRun where
  low : Nat
  high : Nat
  sums : List Nat

/-- The portable `mul` (difficulty.cpp lines 52-87), statement by statement. Each
arithmetic expression is first computed exactly (`e1` .. `e7`) and then reduced with
`wrap64`, as the machine does. -/
def mul_run (a b : Nat) : MulRun :=
  let aLow := a &&& 0xFFFFFFFF
  let aHigh := a >>> 32
  let bLow := b &&& 0xFFFFFFFF
  let bHigh := b >>> 32
  let e1 := aLow * bLow
  let res := wrap64 e1
  let lowRes1 := res &&& 0xFFFFFFFF
  let carry := res >>> 32
  let e2a := aHigh * bLow
  let e2 := wrap64 e2a + carry
  let res := wrap64 e2
  let highResHigh1 := res >>> 32
  let highResLow1 := res &&& 0xFFFFFFFF
  let e3 := aLow * bHigh
  let res := wrap64 e3
  let lowRes2 := res &&& 0xFFFFFFFF
  let carry := res >>> 32
  let e4a := aHigh * bHigh
  let e4 := wrap64 e4a + carry
  let res := wrap64 e4
  let highResHigh2 := res >>> 32
  let highResLow2 := res &&& 0xFFFFFFFF
  let e5 := highResLow1 + lowRes2
  let r := wrap64 e5
  let carry := r >>> 32
  let low := wrap64 (r <<< 32) ||| lowRes1
  let e6a := highResHigh1 + highResLow2
  let e6 := wrap64 e6a + carry
  let r := wrap64 e6
  let d3 := r &&& 0xFFFFFFFF
  let carry := r >>> 32
  let e7 := highResHigh2 + carry
  let r := wrap64 e7
  let high := d3 ||| wrap64 (r <<< 32)
  ⟨low, high, [e1, e2a, e2, e3, e4a, e4, e5, e6a, e6, e7]⟩

/-- The portable `mul (a, b, low, high)`: the pair `(low, high)` it stores. -/
def mul (a b : Nat) : Nat × Nat := ((mul_run a b).low, (mul_run a b).high)

/-- Modelled from the spec: `mul128` of `common/int-util.h`, which is not among the
source files. It is the native double-width multiply used on x86_64: the exact 128-bit
product split into its least-significant and most-significant 64 bits, returned as
`(low, high)`. -/
def mul128 (a b : Nat) : Nat × Nat := (a * b % 2 ^ 64, a * b / 2 ^ 64)

/-- The function `cadd`: `a + b < a` in 64-bit arithmetic. -/
def cadd (a b : Nat) : Bool := decide (wrap64 (a + b) < a)

/-- The function `cadc`: `a + b < a || (c && a + b == (uint64_t) -1)`. -/
def cadc (a b : Nat) (c : Bool) : Bool :=
  decide (wrap64 (a + b) < a) || (c && decide (wrap64 (a + b) = 2 ^ 64 - 1))

/-- The function `check_hash` (lines 99-115). `swap64le` is the word conversion of
`common/int-util.h`, taken as a parameter. -/
def check_hash (swap64le : Nat → Nat) (hash : crypto.hash) (difficulty : Nat) : Bool :=
  let m3 := mul (swap64le hash.w3) difficulty
  let top := m3.1
  let high := m3.2
  if high ≠ 0 then false
  else
    let m0 := mul (swap64le hash.w0) difficulty
    let cur := m0.2
    let m1 := mul (swap64le hash.w1) difficulty
    let low := m1.1
    let high := m1.2
    let carry := cadd cur low
    let cur := high
    let m2 := mul (swap64le hash.w2) difficulty
    let low := m2.1
    let high := m2.2
    let carry := cadc cur low carry
    let carry := cadc high top carry
    !carry

/-- The 256-bit number `H = h0 + h1 * 2^64 + h2 * 2^128 + h3 * 2^192` whose limbs are
the converted words of the hash. -/
def hash_value (swap64le : Nat → Nat) (hash : crypto.hash) : Nat :=
  swap64le hash.w0 + swap64le hash.w1 * 2 ^ 64 + swap64le hash.w2 * 2 ^ 128
    + swap64le hash.w3 * 2 ^ 192

/-- The ways a retarget call can end without a difficulty: one of the two assertions
fails, or the final division has a zero divisor. -/
inductive fault where
  | length_mismatch
  | total_work_not_positive
  | division_by_zero
  deriving DecidableEq

deriving instance DecidableEq for Except

/-- The call `v.resize (n)` of `std::vector`: keep the first `n` entries, pad with zeros
when the vector is shorter. -/
def resize (v : List Nat) (n : Nat) : List Nat :=
  v.take n ++ List.replicate (n - v.length) 0

/-- Body of the accumulation loop for index `i` (lines 136-146): the clamped timespan of
the pair `(timestamps[i - 1], timestamps[i])`. -/
def timespan (timestamps : List Nat) (target_seconds i : Nat) : Nat :=
  let timespan :=
    if timestamps.getD (i - 1) 0 ≥ timestamps.getD i 0 then 1
    else timestamps.getD i 0 - timestamps.getD (i - 1) 0
  if timespan > wrap64 (10 * target_seconds) then wrap64 (10 * target_seconds) else timespan

/-- Value of `weighted_timespans` after the loop `for (i = 1; i < length; i++)` has run
its first `n` iterations (`i = 1 .. n`); the whole loop is `n = length - 1`. -/
def weighted_timespans (timestamps : List Nat) (target_seconds : Nat) : Nat → Nat
  | 0 => 0
  | n + 1 =>
    wrap64 (weighted_timespans timestamps target_seconds n
      + wrap64 ((n + 1) * timespan timestamps target_seconds (n + 1)))

/-- The expression `cumulative_difficulties.back () - cumulative_difficulties.front ()`
in unsigned 64-bit arithmetic. -/
def total_work (cumulative_difficulties : List Nat) : Nat :=
  wrap64 (cumulative_difficulties.getLastD 0 + 2 ^ 64 - cumulative_difficulties.headD 0)

/-- Line 150: `target_seconds * length / 2`. -/
def minimum_timespan_v1 (length target_seconds : Nat) : Nat :=
  wrap64 (target_seconds * length) / 2

/-- Line 160: `((length + 1) / 2) * target_seconds`. -/
def target_v1 (length target_seconds : Nat) : Nat :=
  wrap64 (wrap64 (length + 1) / 2 * target_seconds)

/-- Line 205: `target_seconds * (length - 1) / 2`. -/
def minimum_timespan_v2 (length target_seconds : Nat) : Nat :=
  wrap64 (target_seconds * (length - 1)) / 2

/-- Line 216: `99 * (length / 2) * target_seconds / 100`. -/
def target_v2 (length target_seconds : Nat) : Nat :=
  wrap64 (wrap64 (99 * (length / 2)) * target_seconds) / 100

/-- The function `next_difficulty_v1` (lines 117-168). -/
def next_difficulty_v1 (CRYPTONOTE_DIFFICULTY_WINDOW : Nat)
    (timestamps cumulative_difficulties : List Nat) (target_seconds : Nat) :
    Except fault Nat :=
  let oversize := decide (timestamps.length > CRYPTONOTE_DIFFICULTY_WINDOW)
  let timestamps :=
    if oversize then resize timestamps CRYPTONOTE_DIFFICULTY_WINDOW else timestamps
  let cumulative_difficulties :=
    if oversize then resize cumulative_difficulties CRYPTONOTE_DIFFICULTY_WINDOW
    else cumulative_difficulties
  let length := timestamps.length
  if length ≠ cumulative_difficulties.length then .error .length_mismatch
  else if length ≤ 1 then .ok 1
  else
    let weighted := weighted_timespans timestamps target_seconds (length - 1)
    let minimum_timespan := minimum_timespan_v1 length target_seconds
    let weighted := if weighted < minimum_timespan then minimum_timespan else weighted
    let total_work := total_work cumulative_difficulties
    if ¬ total_work > 0 then .error .total_work_not_positive
    else
      let target := target_v1 length target_seconds
      let m := mul total_work target
      if m.2 ≠ 0 then .ok 0
      else if weighted = 0 then .error .division_by_zero
      else .ok (m.1 / weighted)

/-- The function `next_difficulty_v2` (lines 170-223). -/
def next_difficulty_v2 (CRYPTONOTE_DIFFICULTY_WINDOW : Nat)
    (timestamps cumulative_difficulties : List Nat) (target_seconds : Nat) :
    Except fault Nat :=
  let oversize := decide (timestamps.length > CRYPTONOTE_DIFFICULTY_WINDOW)
  let timestamps :=
    if oversize then resize timestamps CRYPTONOTE_DIFFICULTY_WINDOW else timestamps
  let cumulative_difficulties :=
    if oversize then resize cumulative_difficulties CRYPTONOTE_DIFFICULTY_WINDOW
    else cumulative_difficulties
  let length := timestamps.length
  if length ≠ cumulative_difficulties.length then .error .length_mismatch
  else if length ≤ 1 then .ok 1
  else
    let weighted := weighted_timespans timestamps target_seconds (length - 1)
    let minimum_timespan := minimum_timespan_v2 length target_seconds
    let weighted := if weighted < minimum_timespan then minimum_timespan else weighted
    let total_work := total_work cumulative_difficulties
    if ¬ total_work > 0 then .error .total_work_not_positive
    else
      let target := target_v2 length target_seconds
      let m := mul total_work target
      if m.2 ≠ 0 then .ok 0
      else if weighted = 0 then .error .division_by_zero
      else .ok (m.1 / weighted)

/-- The function `next_difficulty` (lines 225-235). -/
def next_difficulty (CRYPTONOTE_DIFFICULTY_WINDOW CRYPTONOTE_HARDFORK_HEIGHT_1 : Nat)
    (timestamps cumulative_difficulties : List Nat) (height target_seconds : Nat) :
    Except fault Nat :=
  if height ≥ CRYPTONOTE_HARDFORK_HEIGHT_1 then
    next_difficulty_v2 CRYPTONOTE_DIFFICULTY_WINDOW timestamps cumulative_difficulties
      target_seconds
  else
    next_difficulty_v1 CRYPTONOTE_DIFFICULTY_WINDOW timestamps cumulative_difficulties
      target_seconds

/-- Value of `weighted_timespans` in `next_difficulty_v1` when the final division is
reached, that is after the loop and after the minimum of line 150 has been applied, for
a window `timestamps` that is already truncated. -/
def floored_timespans_v1 (timestamps : List Nat) (target_seconds : Nat) : Nat :=
  let weighted := weighted_timespans timestamps target_seconds (timestamps.length - 1)
  let minimum_timespan := minimum_timespan_v1 timestamps.length target_seconds
  if weighted < minimum_timespan then minimum_timespan else weighted

/-- Value of `weighted_timespans` in `next_difficulty_v2` when the final division is
reached (minimum of line 205 applied). -/
def floored_timespans_v2 (timestamps : List Nat) (target_seconds : Nat) : Nat :=
  let weighted := weighted_timespans timestamps target_seconds (timestamps.length - 1)
  let minimum_timespan := minimum_timespan_v2 timestamps.length target_seconds
  if weighted < minimum_timespan then minimum_timespan else weighted

/-- The weighted timespan sum as the specification writes it, over the natural numbers:
the sum over `i = 1 .. L - 1` of `i * min (10 * T) d_i`, where `d_i` is `1` when
`t[i - 1] ≥ t[i]` and `t[i] - t[i - 1]` otherwise. -/
def timespan_sum (t : List Nat) (T L : Nat) : Nat :=
  ∑ i in Finset.Ico 1 L,
    i * min (10 * T) (if t.getD (i - 1) 0 ≥ t.getD i 0 then 1 else t.getD i 0 - t.getD (i - 1) 0)

/-- Lines 120-124 applied to one of the two vectors: `v` is resized to the window size
when `timestamps` is longer than the window, and left alone otherwise. -/
def retained (CRYPTONOTE_DIFFICULTY_WINDOW : Nat) (timestamps v : List Nat) : List Nat :=
  if timestamps.length > CRYPTONOTE_DIFFICULTY_WINDOW then
    resize v CRYPTONOTE_DIFFICULTY_WINDOW
  else v

/-! ## Auxiliary lemmas -/

theorem and_mask32 (x : Nat) : x &&& 0xFFFFFFFF = x % 2 ^ 32 :=
  Nat.and_pow_two_sub_one_eq_mod x 32

theorem or_shift32 (x y : Nat) (hy : y < 2 ^ 32) : (2 ^ 32 * x) ||| y = 2 ^ 32 * x + y :=
  (Nat.mul_add_lt_is_or hy x).symm

theorem or_low32 (r l : Nat) :
    (r * 2 ^ 32 % 2 ^ 64) ||| (l % 2 ^ 32) = r % 2 ^ 32 * 2 ^ 32 + l % 2 ^ 32 := by
  have h : r * 2 ^ 32 % 2 ^ 64 = 2 ^ 32 * (r % 2 ^ 32) := by omega
  rw [h, or_shift32 _ _ (Nat.mod_lt _ (by norm_num))]
  ring

theorem or_high32 (d r : Nat) :
    (d % 2 ^ 32) ||| (r * 2 ^ 32 % 2 ^ 64) = d % 2 ^ 32 + r % 2 ^ 32 * 2 ^ 32 := by
  rw [Nat.lor_comm, or_low32]
  ring

theorem mul_bound32 (x y : Nat) (hx : x < 2 ^ 32) (hy : y < 2 ^ 32) :
    x * y ≤ (2 ^ 32 - 1) * (2 ^ 32 - 1) :=
  Nat.mul_le_mul (by omega) (by omega)

theorem mul_run_spec (a b : Nat) (ha : a < 2 ^ 64) (hb : b < 2 ^ 64) :
    (mul_run a b).low = a * b % 2 ^ 64 ∧ (mul_run a b).high = a * b / 2 ^ 64 ∧
      ∀ s ∈ (mul_run a b).sums, s < 2 ^ 64 := by
  have hab : a * b = a % 2 ^ 32 * (b % 2 ^ 32)
      + (a / 2 ^ 32 * (b % 2 ^ 32) + a % 2 ^ 32 * (b / 2 ^ 32)) * 2 ^ 32
      + a / 2 ^ 32 * (b / 2 ^ 32) * 2 ^ 64 := by
    conv_lhs => rw [← Nat.div_add_mod a (2 ^ 32), ← Nat.div_add_mod b (2 ^ 32)]
    ring
  have h1 := mul_bound32 (a % 2 ^ 32) (b % 2 ^ 32) (Nat.mod_lt _ (by norm_num))
    (Nat.mod_lt _ (by norm_num))
  have h2 := mul_bound32 (a / 2 ^ 32) (b % 2 ^ 32) (by omega) (Nat.mod_lt _ (by norm_num))
  have h3 := mul_bound32 (a % 2 ^ 32) (b / 2 ^ 32) (Nat.mod_lt _ (by norm_num)) (by omega)
  have h4 := mul_bound32 (a / 2 ^ 32) (b / 2 ^ 32) (by omega) (by omega)
  simp only [mul_run, and_mask32, Nat.shiftRight_eq_div_pow, Nat.shiftLeft_eq, wrap64,
    or_low32, or_high32, List.mem_cons, List.mem_singleton, List.not_mem_nil, or_false,
    forall_eq_or_imp, forall_eq]
  rw [hab]
  generalize a % 2 ^ 32 * (b % 2 ^ 32) = p1 at *
  generalize a / 2 ^ 32 * (b % 2 ^ 32) = p2 at *
  generalize a % 2 ^ 32 * (b / 2 ^ 32) = p3 at *
  generalize a / 2 ^ 32 * (b / 2 ^ 32) = p4 at *
  clear hab
  refine ⟨?_, ?_, ?_, ?_, ?_, ?_, ?_, ?_, ?_, ?_, ?_, ?_⟩ <;> omega

theorem mul_eq (a b : Nat) (ha : a < 2 ^ 64) (hb : b < 2 ^ 64) :
    mul a b = (a * b % 2 ^ 64, a * b / 2 ^ 64) := by
  obtain ⟨h1, h2, -⟩ := mul_run_spec a b ha hb
  simp only [mul, h1, h2]

theorem cadd_iff (a b : Nat) (ha : a < 2 ^ 64) (hb : b < 2 ^ 64) :
    cadd a b = true ↔ 2 ^ 64 ≤ a + b := by
  simp only [cadd, wrap64, decide_eq_true_eq]
  omega

theorem cadc_iff (a b : Nat) (c : Bool) (ha : a < 2 ^ 64) (hb : b < 2 ^ 64) :
    cadc a b c = true ↔ 2 ^ 64 ≤ a + b + (if c then 1 else 0) := by
  cases c <;> simp only [cadc, wrap64, Bool.or_eq_true, Bool.and_eq_true, decide_eq_true_eq,
    Bool.false_eq_true, false_and, or_false, true_and, if_true, if_false] <;> omega

theorem check_hash_iff (swap64le : Nat → Nat) (hash : crypto.hash) (difficulty : Nat)
    (h0 : swap64le hash.w0 < 2 ^ 64) (h1 : swap64le hash.w1 < 2 ^ 64)
    (h2 : swap64le hash.w2 < 2 ^ 64) (h3 : swap64le hash.w3 < 2 ^ 64)
    (hd : difficulty < 2 ^ 64) :
    check_hash swap64le hash difficulty = true
      ↔ hash_value swap64le hash * difficulty < 2 ^ 256 := by
  simp only [check_hash, hash_value, mul_eq _ _ h0 hd, mul_eq _ _ h1 hd, mul_eq _ _ h2 hd,
    mul_eq _ _ h3 hd]
  have b0 : swap64le hash.w0 * difficulty < 2 ^ 64 * 2 ^ 64 := Nat.mul_lt_mul'' h0 hd
  have b1 : swap64le hash.w1 * difficulty < 2 ^ 64 * 2 ^ 64 := Nat.mul_lt_mul'' h1 hd
  have b2 : swap64le hash.w2 * difficulty < 2 ^ 64 * 2 ^ 64 := Nat.mul_lt_mul'' h2 hd
  have b3 : swap64le hash.w3 * difficulty < 2 ^ 64 * 2 ^ 64 := Nat.mul_lt_mul'' h3 hd
  have e : (swap64le hash.w0 + swap64le hash.w1 * 2 ^ 64 + swap64le hash.w2 * 2 ^ 128
      + swap64le hash.w3 * 2 ^ 192) * difficulty
      = swap64le hash.w0 * difficulty + swap64le hash.w1 * difficulty * 2 ^ 64
        + swap64le hash.w2 * difficulty * 2 ^ 128
        + swap64le hash.w3 * difficulty * 2 ^ 192 := by ring
  rw [e]
  generalize swap64le hash.w0 * difficulty = p0 at *
  generalize swap64le hash.w1 * difficulty = p1 at *
  generalize swap64le hash.w2 * difficulty = p2 at *
  generalize swap64le hash.w3 * difficulty = p3 at *
  clear e
  by_cases hq : p3 / 2 ^ 64 = 0
  · rw [if_neg (by simpa using hq)]
    have c1 := cadd_iff (p0 / 2 ^ 64) (p1 % 2 ^ 64) (by omega) (by omega)
    generalize cadd (p0 / 2 ^ 64) (p1 % 2 ^ 64) = k1 at *
    have c2 := cadc_iff (p1 / 2 ^ 64) (p2 % 2 ^ 64) k1 (by omega) (by omega)
    generalize cadc (p1 / 2 ^ 64) (p2 % 2 ^ 64) k1 = k2 at *
    have c3 := cadc_iff (p2 / 2 ^ 64) (p3 % 2 ^ 64) k2 (by omega) (by omega)
    generalize cadc (p2 / 2 ^ 64) (p3 % 2 ^ 64) k2 = k3 at *
    cases k1 <;> cases k2 <;> cases k3 <;>
      simp only [Bool.false_eq_true, false_iff, true_iff, if_true, if_false, Bool.not_true,
        Bool.not_false] at c1 c2 c3 ⊢ <;> omega
  · rw [if_pos hq]
    simp only [Bool.false_eq_true, false_iff]
    omega

theorem wrap64_lt (x : Nat) : wrap64 x < 2 ^ 64 := Nat.mod_lt _ (by norm_num)

theorem wrap64_of_lt {x : Nat} (h : x < 2 ^ 64) : wrap64 x = x := Nat.mod_eq_of_lt h

theorem resize_of_le (v : List Nat) (n : Nat) (h : n ≤ v.length) : resize v n = v.take n := by
  simp [resize, Nat.sub_eq_zero_of_le h]

theorem length_resize (v : List Nat) (n : Nat) : (resize v n).length = n := by
  simp only [resize, List.length_append, List.length_take, List.length_replicate]
  omega

theorem truncate_eq_take (W : Nat) (v w : List Nat) (h : v.length = w.length) :
    (if decide (v.length > W) = true then resize w W else w) = w.take W := by
  by_cases hW : v.length > W
  · rw [if_pos (by simpa using hW), resize_of_le _ _ (by omega)]
  · rw [if_neg (by simpa using hW), List.take_of_length_le (by omega)]

theorem total_work_lt (c : List Nat) : total_work c < 2 ^ 64 := wrap64_lt _

theorem target_v1_lt (L T : Nat) : target_v1 L T < 2 ^ 64 := wrap64_lt _

theorem target_v2_lt (L T : Nat) : target_v2 L T < 2 ^ 64 :=
  lt_of_le_of_lt (Nat.div_le_self _ _) (wrap64_lt _)

theorem finish_eq (a b D : Nat) (ha : a < 2 ^ 64) (hb : b < 2 ^ 64) :
    (if (mul a b).2 ≠ 0 then (Except.ok 0 : Except fault Nat)
      else if D = 0 then .error .division_by_zero else .ok ((mul a b).1 / D))
    = if 2 ^ 64 ≤ a * b then .ok 0
      else if D = 0 then .error .division_by_zero else .ok (a * b / D) := by
  rw [mul_eq a b ha hb]
  by_cases h : 2 ^ 64 ≤ a * b
  · have : a * b / 2 ^ 64 ≠ 0 := by
      have := Nat.div_pos h (by norm_num : 0 < 2 ^ 64)
      omega
    simp only [ne_eq, this, not_false_eq_true, if_true, if_pos h]
  · have h1 : a * b / 2 ^ 64 = 0 := Nat.div_eq_of_lt (by omega)
    have h2 : a * b % 2 ^ 64 = a * b := Nat.mod_eq_of_lt (by omega)
    simp only [ne_eq, h1, not_true_eq_false, if_false, if_neg h, h2]

theorem next_difficulty_v1_run (W : Nat) (ts cs : List Nat) (T : Nat)
    (hlen : ts.length = cs.length) (h2 : 2 ≤ min ts.length W)
    (htw : 0 < total_work (cs.take W)) :
    next_difficulty_v1 W ts cs T =
      if 2 ^ 64 ≤ total_work (cs.take W) * target_v1 (min ts.length W) T then .ok 0
      else if floored_timespans_v1 (ts.take W) T = 0 then .error .division_by_zero
      else .ok (total_work (cs.take W) * target_v1 (min ts.length W) T
        / floored_timespans_v1 (ts.take W) T) := by
  have e1 := truncate_eq_take W ts ts rfl
  have e2 := truncate_eq_take W ts cs hlen
  have hl : (ts.take W).length = min ts.length W := by
    rw [List.length_take, Nat.min_comm]
  have hl2 : (cs.take W).length = min ts.length W := by
    rw [List.length_take, ← hlen, Nat.min_comm]
  unfold next_difficulty_v1
  simp only [e1, e2, hl, hl2]
  rw [if_neg (by simp), if_neg (by omega), if_neg (by simp only [gt_iff_lt, not_not]; exact htw)]
  rw [finish_eq _ _ _ (total_work_lt _) (target_v1_lt _ _)]
  simp only [floored_timespans_v1, hl]

theorem next_difficulty_v2_run (W : Nat) (ts cs : List Nat) (T : Nat)
    (hlen : ts.length = cs.length) (h2 : 2 ≤ min ts.length W)
    (htw : 0 < total_work (cs.take W)) :
    next_difficulty_v2 W ts cs T =
      if 2 ^ 64 ≤ total_work (cs.take W) * target_v2 (min ts.length W) T then .ok 0
      else if floored_timespans_v2 (ts.take W) T = 0 then .error .division_by_zero
      else .ok (total_work (cs.take W) * target_v2 (min ts.length W) T
        / floored_timespans_v2 (ts.take W) T) := by
  have e1 := truncate_eq_take W ts ts rfl
  have e2 := truncate_eq_take W ts cs hlen
  have hl : (ts.take W).length = min ts.length W := by
    rw [List.length_take, Nat.min_comm]
  have hl2 : (cs.take W).length = min ts.length W := by
    rw [List.length_take, ← hlen, Nat.min_comm]
  unfold next_difficulty_v2
  simp only [e1, e2, hl, hl2]
  rw [if_neg (by simp), if_neg (by omega), if_neg (by simp only [gt_iff_lt, not_not]; exact htw)]
  rw [finish_eq _ _ _ (total_work_lt _) (target_v2_lt _ _)]
  simp only [floored_timespans_v2, hl]

theorem timespan_eq_min (t : List Nat) (T i : Nat) (hT : 10 * T < 2 ^ 64) :
    timespan t T i
      = min (10 * T)
          (if t.getD (i - 1) 0 ≥ t.getD i 0 then 1 else t.getD i 0 - t.getD (i - 1) 0) := by
  simp only [timespan, wrap64_of_lt hT]
  split_ifs <;> omega

theorem timespan_sum_succ (t : List Nat) (T n : Nat) :
    timespan_sum t T (n + 2)
      = timespan_sum t T (n + 1)
        + (n + 1) * min (10 * T)
            (if t.getD n 0 ≥ t.getD (n + 1) 0 then 1 else t.getD (n + 1) 0 - t.getD n 0) := by
  unfold timespan_sum
  rw [Finset.sum_Ico_succ_top (by omega : 1 ≤ n + 1)]
  simp

theorem weighted_timespans_eq_sum (t : List Nat) (T : Nat) (hT : 10 * T < 2 ^ 64) :
    ∀ n, timespan_sum t T (n + 1) < 2 ^ 64 →
      weighted_timespans t T n = timespan_sum t T (n + 1)
  | 0, _ => by simp [weighted_timespans, timespan_sum]
  | n + 1, h => by
    rw [timespan_sum_succ] at h
    have ih := weighted_timespans_eq_sum t T hT n (by omega)
    have hw : weighted_timespans t T (n + 1)
        = wrap64 (weighted_timespans t T n + wrap64 ((n + 1) * timespan t T (n + 1))) := rfl
    rw [hw, ih, timespan_eq_min t T (n + 1) hT, timespan_sum_succ]
    simp only [Nat.add_sub_cancel] at h ⊢
    generalize (n + 1) * min (10 * T)
      (if t.getD n 0 ≥ t.getD (n + 1) 0 then 1 else t.getD (n + 1) 0 - t.getD n 0) = x at h ⊢
    rw [wrap64_of_lt (by omega : x < 2 ^ 64), wrap64_of_lt h]

theorem one_le_timespan_sum (t : List Nat) (T L : Nat) (hT : 1 ≤ T) (hL : 2 ≤ L) :
    1 ≤ timespan_sum t T L := by
  obtain ⟨n, rfl⟩ : ∃ n, L = n + 2 := ⟨L - 2, by omega⟩
  clear hL
  induction n with
  | zero =>
    rw [timespan_sum_succ]
    have : 1 ≤ min (10 * T) (if t.getD 0 0 ≥ t.getD (0 + 1) 0 then 1
        else t.getD (0 + 1) 0 - t.getD 0 0) := by
      split <;> omega
    omega
  | succ n ih =>
    rw [timespan_sum_succ]
    exact le_trans ih (Nat.le_add_right _ _)

theorem timespan_sum_lower (t : List Nat) (T : Nat) (hT : 1 ≤ T) :
    ∀ n, (n + 1) * n ≤ 2 * timespan_sum t T (n + 1)
  | 0 => by simp
  | n + 1 => by
    have ih := timespan_sum_lower t T hT n
    rw [timespan_sum_succ]
    have hm : 1 ≤ min (10 * T)
        (if t.getD n 0 ≥ t.getD (n + 1) 0 then 1 else t.getD (n + 1) 0 - t.getD n 0) := by
      split_ifs <;> omega
    have hx := Nat.mul_le_mul_left (n + 1) hm
    generalize (n + 1) * min (10 * T)
      (if t.getD n 0 ≥ t.getD (n + 1) 0 then 1 else t.getD (n + 1) 0 - t.getD n 0) = x at hx ⊢
    have e : (n + 1 + 1) * (n + 1) = (n + 1) * n + 2 * (n + 1) := by ring
    omega

theorem length_lt_of_sum_lt (t : List Nat) (T L : Nat) (hT : 1 ≤ T) (hL : 2 ≤ L)
    (hS : timespan_sum t T L < 2 ^ 64) : L + 1 < 2 ^ 64 := by
  obtain ⟨n, rfl⟩ : ∃ n, L = n + 1 := ⟨L - 1, by omega⟩
  have h := timespan_sum_lower t T hT n
  by_contra hc
  have h1 : 2 ^ 64 - 2 ≤ n := by omega
  have h2 : (2 ^ 64 - 2) * (2 ^ 64 - 2) ≤ (n + 1) * n :=
    Nat.mul_le_mul (by omega) h1
  omega

theorem total_work_eq_sub (c : List Nat) (h1 : c.getLastD 0 < 2 ^ 64)
    (h2 : c.headD 0 < c.getLastD 0) : total_work c = c.getLastD 0 - c.headD 0 := by
  unfold total_work wrap64
  omega

theorem floored_v1_eq_max (t : List Nat) (T : Nat) (h2 : 2 ≤ t.length)
    (h10 : 10 * T < 2 ^ 64) (hS : timespan_sum t T t.length < 2 ^ 64)
    (hTL : T * t.length < 2 ^ 64) :
    floored_timespans_v1 t T = max (timespan_sum t T t.length) (T * t.length / 2) := by
  have hL : t.length - 1 + 1 = t.length := by omega
  have hw := weighted_timespans_eq_sum t T h10 (t.length - 1) (by rw [hL]; exact hS)
  rw [hL] at hw
  simp only [floored_timespans_v1, hw, minimum_timespan_v1, wrap64_of_lt hTL]
  split_ifs <;> omega

theorem floored_v2_eq_max (t : List Nat) (T : Nat) (h2 : 2 ≤ t.length)
    (h10 : 10 * T < 2 ^ 64) (hS : timespan_sum t T t.length < 2 ^ 64)
    (hTL : T * (t.length - 1) < 2 ^ 64) :
    floored_timespans_v2 t T = max (timespan_sum t T t.length) (T * (t.length - 1) / 2) := by
  have hL : t.length - 1 + 1 = t.length := by omega
  have hw := weighted_timespans_eq_sum t T h10 (t.length - 1) (by rw [hL]; exact hS)
  rw [hL] at hw
  simp only [floored_timespans_v2, hw, minimum_timespan_v2, wrap64_of_lt hTL]
  split_ifs <;> omega

theorem target_v1_eq (L T : Nat) (hL : L + 1 < 2 ^ 64) (hTL : T * L < 2 ^ 64) :
    target_v1 L T = (L + 1) / 2 * T := by
  have h : (L + 1) / 2 * T ≤ T * L := by
    rw [Nat.mul_comm T L]
    exact Nat.mul_le_mul_right T (by omega)
  simp only [target_v1, wrap64_of_lt hL, wrap64_of_lt (lt_of_le_of_lt h hTL)]

theorem target_v2_eq (L T : Nat) (hT : 1 ≤ T) (h99 : 99 * (L / 2) * T < 2 ^ 64) :
    target_v2 L T = 99 * (L / 2) * T / 100 := by
  have h : 99 * (L / 2) ≤ 99 * (L / 2) * T := Nat.le_mul_of_pos_right _ hT
  simp only [target_v2, wrap64_of_lt (lt_of_le_of_lt h h99), wrap64_of_lt h99]


theorem mul_high_ne_zero_iff (a b : Nat) (ha : a < 2 ^ 64) (hb : b < 2 ^ 64) :
    (mul a b).2 ≠ 0 ↔ 2 ^ 64 ≤ a * b := by
  rw [mul_eq a b ha hb]
  generalize a * b = p
  simp only [ne_eq]
  omega

theorem le_floored_v1 (t : List Nat) (T : Nat) :
    weighted_timespans t T (t.length - 1) ≤ floored_timespans_v1 t T := by
  simp only [floored_timespans_v1]
  split_ifs <;> omega

theorem le_floored_v2 (t : List Nat) (T : Nat) :
    weighted_timespans t T (t.length - 1) ≤ floored_timespans_v2 t T := by
  simp only [floored_timespans_v2]
  split_ifs <;> omega

theorem one_le_weighted (t : List Nat) (T : Nat) (h2 : 2 ≤ t.length) (hT : 1 ≤ T)
    (h10 : 10 * T < 2 ^ 64) (hS : timespan_sum t T t.length < 2 ^ 64) :
    1 ≤ weighted_timespans t T (t.length - 1) := by
  have hL : t.length - 1 + 1 = t.length := by omega
  rw [weighted_timespans_eq_sum t T h10 (t.length - 1) (by rw [hL]; exact hS), hL]
  exact one_le_timespan_sum t T t.length hT h2

theorem ok_div_eq_zero_iff (P D : Nat) (hD : 0 < D) :
    (Except.ok (P / D) : Except fault Nat) = .ok 0 ↔ P < D := by
  rw [Except.ok.injEq, Nat.div_eq_zero_iff hD]

/-! ## The claims -/

/-- C1: for every hash whose four converted limbs `h0 .. h3` are 64-bit values and every
64-bit difficulty `d`, `check_hash` returns true exactly when `H * d < 2 ^ 256`, with
`H = h0 + h1 * 2^64 + h2 * 2^128 + h3 * 2^192` and the product taken over the naturals. -/
theorem check_hash_iff_product_lt (swap64le : Nat → Nat) (hash : crypto.hash)
    (difficulty : Nat)
    (h0 : swap64le hash.w0 < 2 ^ 64) (h1 : swap64le hash.w1 < 2 ^ 64)
    (h2 : swap64le hash.w2 < 2 ^ 64) (h3 : swap64le hash.w3 < 2 ^ 64)
    (hd : difficulty < 2 ^ 64) :
    check_hash swap64le hash difficulty = true
      ↔ hash_value swap64le hash * difficulty < 2 ^ 256 :=
  check_hash_iff swap64le hash difficulty h0 h1 h2 h3 hd

/-- Instance of C1 at the hash with limbs `2^64 - 1, 2^64 - 1, 2^64 - 1, 2^62` and
difficulty 3. -/
theorem check_hash_iff_product_lt_witness :
    (3 < 2 ^ 64) ∧
    (check_hash id ⟨18446744073709551615, 18446744073709551615, 18446744073709551615,
        4611686018427387904⟩ 3 = true
      ↔ hash_value id ⟨18446744073709551615, 18446744073709551615, 18446744073709551615,
        4611686018427387904⟩ * 3 < 2 ^ 256) :=
  ⟨by decide,
    check_hash_iff_product_lt id ⟨18446744073709551615, 18446744073709551615,
      18446744073709551615, 4611686018427387904⟩ 3
      (by decide) (by decide) (by decide) (by decide) (by decide)⟩

/-- C2: for 64-bit `a` and `b` the portable `mul` stores `low` and `high` with
`high * 2^64 + low = a * b`, that is `low = a * b mod 2^64` and `high = a * b div 2^64`,
the same pair as the native double-width multiply, and none of the sums and products it
evaluates in 64-bit arithmetic reaches `2^64`. -/
theorem mul_portable_exact (a b : Nat) (ha : a < 2 ^ 64) (hb : b < 2 ^ 64) :
    (mul a b).2 * 2 ^ 64 + (mul a b).1 = a * b
      ∧ (mul a b).1 = a * b % 2 ^ 64 ∧ (mul a b).2 = a * b / 2 ^ 64
      ∧ mul a b = mul128 a b
      ∧ ∀ s ∈ (mul_run a b).sums, s < 2 ^ 64 := by
  have h := mul_eq a b ha hb
  refine ⟨?_, ?_, ?_, ?_, (mul_run_spec a b ha hb).2.2⟩
  · rw [h]
    exact Nat.div_add_mod' (a * b) (2 ^ 64)
  · rw [h]
  · rw [h]
  · rw [h, mul128]

/-- Instance of C2 at `a = b = 2^64 - 1`. -/
theorem mul_portable_exact_witness :
    (18446744073709551615 < 2 ^ 64) ∧
    ((mul 18446744073709551615 18446744073709551615).2 * 2 ^ 64
        + (mul 18446744073709551615 18446744073709551615).1
        = 18446744073709551615 * 18446744073709551615
      ∧ (mul 18446744073709551615 18446744073709551615).1
        = 18446744073709551615 * 18446744073709551615 % 2 ^ 64
      ∧ (mul 18446744073709551615 18446744073709551615).2
        = 18446744073709551615 * 18446744073709551615 / 2 ^ 64
      ∧ mul 18446744073709551615 18446744073709551615
        = mul128 18446744073709551615 18446744073709551615
      ∧ ∀ s ∈ (mul_run 18446744073709551615 18446744073709551615).sums, s < 2 ^ 64) :=
  ⟨by decide, mul_portable_exact 18446744073709551615 18446744073709551615
    (by decide) (by decide)⟩

/-- C3, amended by `1 ≤ T`: for an equal-length window of length `L` with
`2 ≤ L ≤ CRYPTONOTE_DIFFICULTY_WINDOW`, `c[last] > c[first]`, `T ≥ 1` and no 64-bit wrap
(`10 * T`, the weighted sum `S` and `T * L` below `2^64`), when `total_work * target`
is below `2^64` the function `next_difficulty_v1` returns
`total_work * target / max S (T * L / 2)` with `total_work = c[last] - c[first]` and
`target = (L + 1) / 2 * T`; on timestamps `[1000, 1100, 1250, 1400]`, cumulative
difficulties `[0, 100, 250, 500]` and `T = 120` it returns 141. -/
theorem next_difficulty_v1_formula :
    (∀ (W : Nat) (t c : List Nat) (T : Nat),
      t.length = c.length → 2 ≤ t.length → t.length ≤ W →
      c.getLastD 0 < 2 ^ 64 → c.headD 0 < c.getLastD 0 →
      1 ≤ T → 10 * T < 2 ^ 64 → timespan_sum t T t.length < 2 ^ 64 →
      T * t.length < 2 ^ 64 →
      (c.getLastD 0 - c.headD 0) * ((t.length + 1) / 2 * T) < 2 ^ 64 →
      next_difficulty_v1 W t c T
        = .ok ((c.getLastD 0 - c.headD 0) * ((t.length + 1) / 2 * T)
            / max (timespan_sum t T t.length) (T * t.length / 2)))
    ∧ ∀ W, 4 ≤ W →
      next_difficulty_v1 W [1000, 1100, 1250, 1400] [0, 100, 250, 500] 120 = .ok 141 := by
  have main : ∀ (W : Nat) (t c : List Nat) (T : Nat),
      t.length = c.length → 2 ≤ t.length → t.length ≤ W →
      c.getLastD 0 < 2 ^ 64 → c.headD 0 < c.getLastD 0 →
      1 ≤ T → 10 * T < 2 ^ 64 → timespan_sum t T t.length < 2 ^ 64 →
      T * t.length < 2 ^ 64 →
      (c.getLastD 0 - c.headD 0) * ((t.length + 1) / 2 * T) < 2 ^ 64 →
      next_difficulty_v1 W t c T
        = .ok ((c.getLastD 0 - c.headD 0) * ((t.length + 1) / 2 * T)
            / max (timespan_sum t T t.length) (T * t.length / 2)) := by
    intro W t c T hlen h2 hW hlast hlt hT h10 hS hTL hP
    have hmin : min t.length W = t.length := Nat.min_eq_left hW
    have ht : t.take W = t := List.take_of_length_le hW
    have hc : c.take W = c := List.take_of_length_le (hlen ▸ hW)
    have htw := total_work_eq_sub c hlast hlt
    have htg := target_v1_eq t.length T (length_lt_of_sum_lt t T _ hT h2 hS) hTL
    have hD := floored_v1_eq_max t T h2 h10 hS hTL
    have hpos := one_le_timespan_sum t T t.length hT h2
    rw [next_difficulty_v1_run W t c T hlen (by omega) (by rw [hc, htw]; omega)]
    rw [hmin, ht, hc, htw, htg, hD, if_neg (by omega), if_neg (by omega)]
  refine ⟨main, fun W hW => ?_⟩
  rw [main W [1000, 1100, 1250, 1400] [0, 100, 250, 500] 120 rfl (by decide) hW
    (by decide) (by decide) (by decide) (by decide) (by decide) (by decide) (by decide)]
  decide

/-- Instance of C3 at the window `[0, 100, 250]`, `[10, 50, 90]` with `T = 60`. -/
theorem next_difficulty_v1_formula_witness :
    (([0, 100, 250] : List Nat).length = ([10, 50, 90] : List Nat).length
      ∧ 2 ≤ ([0, 100, 250] : List Nat).length ∧ ([0, 100, 250] : List Nat).length ≤ 720
      ∧ 1 ≤ 60 ∧ 10 * 60 < 2 ^ 64 ∧ timespan_sum [0, 100, 250] 60 3 < 2 ^ 64)
    ∧ next_difficulty_v1 720 [0, 100, 250] [10, 50, 90] 60
        = .ok ((90 - 10) * ((3 + 1) / 2 * 60) / max (timespan_sum [0, 100, 250] 60 3)
            (60 * 3 / 2)) :=
  ⟨by decide, next_difficulty_v1_formula.1 720 [0, 100, 250] [10, 50, 90] 60 rfl (by decide)
    (by decide) (by decide) (by decide) (by decide) (by decide) (by decide) (by decide)
    (by decide)⟩

/-- C3 as stated fails at `T = 0`: every hypothesis of the claim holds for the window
`[0, 1]`, `[0, 1]`, but the divisor `max S (T * L / 2)` is zero and the call ends in a
division by zero instead of returning the claimed quotient. -/
theorem next_difficulty_v1_formula_counterexample :
    (([0, 1] : List Nat).length = ([0, 1] : List Nat).length
      ∧ 2 ≤ ([0, 1] : List Nat).length ∧ ([0, 1] : List Nat).length ≤ 720
      ∧ ([0, 1] : List Nat).getLastD 0 < 2 ^ 64
      ∧ ([0, 1] : List Nat).headD 0 < ([0, 1] : List Nat).getLastD 0
      ∧ 10 * 0 < 2 ^ 64 ∧ timespan_sum [0, 1] 0 2 < 2 ^ 64 ∧ 0 * 2 < 2 ^ 64
      ∧ (1 - 0) * ((2 + 1) / 2 * 0) < 2 ^ 64)
    ∧ max (timespan_sum [0, 1] 0 2) (0 * 2 / 2) = 0
    ∧ next_difficulty_v1 720 [0, 1] [0, 1] 0 = .error .division_by_zero
    ∧ next_difficulty_v1 720 [0, 1] [0, 1] 0
        ≠ .ok ((1 - 0) * ((2 + 1) / 2 * 0) / max (timespan_sum [0, 1] 0 2) (0 * 2 / 2)) := by
  decide

/-- C4, amended by `1 ≤ T`: for an equal-length window of length `L` with
`2 ≤ L ≤ CRYPTONOTE_DIFFICULTY_WINDOW`, `c[last] > c[first]`, `T ≥ 1` and no 64-bit wrap
(`10 * T`, the weighted sum `S`, `T * (L - 1)` and `99 * (L / 2) * T` below `2^64`),
when `total_work * target` is below `2^64` the function `next_difficulty_v2` returns
`total_work * target / max S (T * (L - 1) / 2)` with `total_work = c[last] - c[first]`
and `target = 99 * (L / 2) * T / 100`. -/
theorem next_difficulty_v2_formula (W : Nat) (t c : List Nat) (T : Nat)
    (hlen : t.length = c.length) (h2 : 2 ≤ t.length) (hW : t.length ≤ W)
    (hlast : c.getLastD 0 < 2 ^ 64) (hlt : c.headD 0 < c.getLastD 0)
    (hT : 1 ≤ T) (h10 : 10 * T < 2 ^ 64) (hS : timespan_sum t T t.length < 2 ^ 64)
    (hTL : T * (t.length - 1) < 2 ^ 64) (h99 : 99 * (t.length / 2) * T < 2 ^ 64)
    (hP : (c.getLastD 0 - c.headD 0) * (99 * (t.length / 2) * T / 100) < 2 ^ 64) :
    next_difficulty_v2 W t c T
      = .ok ((c.getLastD 0 - c.headD 0) * (99 * (t.length / 2) * T / 100)
          / max (timespan_sum t T t.length) (T * (t.length - 1) / 2)) := by
  have hmin : min t.length W = t.length := Nat.min_eq_left hW
  have ht : t.take W = t := List.take_of_length_le hW
  have hc : c.take W = c := List.take_of_length_le (hlen ▸ hW)
  have htw := total_work_eq_sub c hlast hlt
  have htg := target_v2_eq t.length T hT h99
  have hD := floored_v2_eq_max t T h2 h10 hS hTL
  have hpos := one_le_timespan_sum t T t.length hT h2
  rw [next_difficulty_v2_run W t c T hlen (by omega) (by rw [hc, htw]; omega)]
  rw [hmin, ht, hc, htw, htg, hD, if_neg (by omega), if_neg (by omega)]

/-- Instance of C4 at the documented window with `T = 120`: the result is 139. -/
theorem next_difficulty_v2_formula_witness :
    (([1000, 1100, 1250, 1400] : List Nat).length = ([0, 100, 250, 500] : List Nat).length
      ∧ 2 ≤ ([1000, 1100, 1250, 1400] : List Nat).length
      ∧ ([1000, 1100, 1250, 1400] : List Nat).length ≤ 720
      ∧ 1 ≤ 120 ∧ 10 * 120 < 2 ^ 64
      ∧ timespan_sum [1000, 1100, 1250, 1400] 120 4 < 2 ^ 64
      ∧ (500 - 0) * (99 * (4 / 2) * 120 / 100)
          / max (timespan_sum [1000, 1100, 1250, 1400] 120 4) (120 * (4 - 1) / 2) = 139)
    ∧ next_difficulty_v2 720 [1000, 1100, 1250, 1400] [0, 100, 250, 500] 120
        = .ok ((500 - 0) * (99 * (4 / 2) * 120 / 100)
            / max (timespan_sum [1000, 1100, 1250, 1400] 120 4) (120 * (4 - 1) / 2)) :=
  ⟨by decide, next_difficulty_v2_formula 720 [1000, 1100, 1250, 1400] [0, 100, 250, 500] 120
    rfl (by decide) (by decide) (by decide) (by decide) (by decide) (by decide) (by decide)
    (by decide) (by decide) (by decide)⟩

/-- C4 as stated fails at `T = 0`: every hypothesis of the claim holds for the window
`[0, 1]`, `[0, 1]`, but the divisor `max S (T * (L - 1) / 2)` is zero and the call ends
in a division by zero instead of returning the claimed quotient. -/
theorem next_difficulty_v2_formula_counterexample :
    (([0, 1] : List Nat).length = ([0, 1] : List Nat).length
      ∧ 2 ≤ ([0, 1] : List Nat).length ∧ ([0, 1] : List Nat).length ≤ 720
      ∧ ([0, 1] : List Nat).getLastD 0 < 2 ^ 64
      ∧ ([0, 1] : List Nat).headD 0 < ([0, 1] : List Nat).getLastD 0
      ∧ 10 * 0 < 2 ^ 64 ∧ timespan_sum [0, 1] 0 2 < 2 ^ 64 ∧ 0 * (2 - 1) < 2 ^ 64
      ∧ 99 * (2 / 2) * 0 < 2 ^ 64
      ∧ (1 - 0) * (99 * (2 / 2) * 0 / 100) < 2 ^ 64)
    ∧ max (timespan_sum [0, 1] 0 2) (0 * (2 - 1) / 2) = 0
    ∧ next_difficulty_v2 720 [0, 1] [0, 1] 0 = .error .division_by_zero
    ∧ next_difficulty_v2 720 [0, 1] [0, 1] 0
        ≠ .ok ((1 - 0) * (99 * (2 / 2) * 0 / 100)
            / max (timespan_sum [0, 1] 0 2) (0 * (2 - 1) / 2)) := by
  decide

/-- C5: `next_difficulty` returns exactly the result of `next_difficulty_v2` when
`height ≥ CRYPTONOTE_HARDFORK_HEIGHT_1` and exactly the result of `next_difficulty_v1`
when `height < CRYPTONOTE_HARDFORK_HEIGHT_1`, faults included. -/
theorem next_difficulty_dispatch (W H1 : Nat) (timestamps cumulative_difficulties : List Nat)
    (height target_seconds : Nat) :
    (H1 ≤ height → next_difficulty W H1 timestamps cumulative_difficulties height
        target_seconds
      = next_difficulty_v2 W timestamps cumulative_difficulties target_seconds)
    ∧ (height < H1 → next_difficulty W H1 timestamps cumulative_difficulties height
        target_seconds
      = next_difficulty_v1 W timestamps cumulative_difficulties target_seconds) := by
  constructor
  · intro h
    rw [next_difficulty, if_pos h]
  · intro h
    rw [next_difficulty, if_neg (by omega)]

/-- Instance of C5 around a fork height of 1000, on the documented window, where the two
generations differ (139 and 141). -/
theorem next_difficulty_dispatch_witness :
    next_difficulty 720 1000 [1000, 1100, 1250, 1400] [0, 100, 250, 500] 1000 120
        = next_difficulty_v2 720 [1000, 1100, 1250, 1400] [0, 100, 250, 500] 120
    ∧ next_difficulty 720 1000 [1000, 1100, 1250, 1400] [0, 100, 250, 500] 999 120
        = next_difficulty_v1 720 [1000, 1100, 1250, 1400] [0, 100, 250, 500] 120 :=
  ⟨(next_difficulty_dispatch 720 1000 [1000, 1100, 1250, 1400] [0, 100, 250, 500] 1000
      120).1 (by decide),
    (next_difficulty_dispatch 720 1000 [1000, 1100, 1250, 1400] [0, 100, 250, 500] 999
      120).2 (by decide)⟩

/-- C6: for an equal-length window whose length after truncation to the window size is
0 or 1, and every target and height, `next_difficulty_v1`, `next_difficulty_v2` and
`next_difficulty` all return 1. -/
theorem next_difficulty_bootstrap (W H1 : Nat) (timestamps cumulative_difficulties : List Nat)
    (height target_seconds : Nat)
    (hlen : timestamps.length = cumulative_difficulties.length)
    (h : min timestamps.length W ≤ 1) :
    next_difficulty_v1 W timestamps cumulative_difficulties target_seconds = .ok 1
      ∧ next_difficulty_v2 W timestamps cumulative_difficulties target_seconds = .ok 1
      ∧ next_difficulty W H1 timestamps cumulative_difficulties height target_seconds
        = .ok 1 := by
  have e1 := truncate_eq_take W timestamps timestamps rfl
  have e2 := truncate_eq_take W timestamps cumulative_difficulties hlen
  have hl : (timestamps.take W).length = min timestamps.length W := by
    rw [List.length_take, Nat.min_comm]
  have hl2 : (cumulative_difficulties.take W).length = min timestamps.length W := by
    rw [List.length_take, ← hlen, Nat.min_comm]
  have h1 : next_difficulty_v1 W timestamps cumulative_difficulties target_seconds
      = .ok 1 := by
    unfold next_difficulty_v1
    simp only [e1, e2, hl, hl2]
    rw [if_neg (by simp), if_pos h]
  have h2 : next_difficulty_v2 W timestamps cumulative_difficulties target_seconds
      = .ok 1 := by
    unfold next_difficulty_v2
    simp only [e1, e2, hl, hl2]
    rw [if_neg (by simp), if_pos h]
  refine ⟨h1, h2, ?_⟩
  unfold next_difficulty
  split_ifs
  · exact h2
  · exact h1

/-- Instance of C6 at a window of three entries truncated to a window size of 1. -/
theorem next_difficulty_bootstrap_witness :
    (([7, 8, 9] : List Nat).length = ([1, 2, 3] : List Nat).length
      ∧ min ([7, 8, 9] : List Nat).length 1 ≤ 1)
    ∧ next_difficulty_v1 1 [7, 8, 9] [1, 2, 3] 120 = .ok 1
    ∧ next_difficulty_v2 1 [7, 8, 9] [1, 2, 3] 120 = .ok 1
    ∧ next_difficulty 1 1000 [7, 8, 9] [1, 2, 3] 5 120 = .ok 1 :=
  ⟨by decide, next_difficulty_bootstrap 1 1000 [7, 8, 9] [1, 2, 3] 5 120 rfl (by decide)⟩

/-- C7: for an equal-length window of (truncated) length at least 2 with positive
`total_work`, the high word of `total_work * target` is non-zero exactly when the
product is at least `2^64`, and in that case `next_difficulty_v1` and
`next_difficulty_v2` return 0, whatever the timestamps are. -/
theorem next_difficulty_overflow (W : Nat) (timestamps cumulative_difficulties : List Nat)
    (target_seconds : Nat)
    (hlen : timestamps.length = cumulative_difficulties.length)
    (h2 : 2 ≤ min timestamps.length W)
    (htw : 0 < total_work (cumulative_difficulties.take W)) :
    (((mul (total_work (cumulative_difficulties.take W))
          (target_v1 (min timestamps.length W) target_seconds)).2 ≠ 0
        ↔ 2 ^ 64 ≤ total_work (cumulative_difficulties.take W)
            * target_v1 (min timestamps.length W) target_seconds)
      ∧ ((mul (total_work (cumulative_difficulties.take W))
          (target_v1 (min timestamps.length W) target_seconds)).2 ≠ 0
        → next_difficulty_v1 W timestamps cumulative_difficulties target_seconds = .ok 0))
    ∧ (((mul (total_work (cumulative_difficulties.take W))
          (target_v2 (min timestamps.length W) target_seconds)).2 ≠ 0
        ↔ 2 ^ 64 ≤ total_work (cumulative_difficulties.take W)
            * target_v2 (min timestamps.length W) target_seconds)
      ∧ ((mul (total_work (cumulative_difficulties.take W))
          (target_v2 (min timestamps.length W) target_seconds)).2 ≠ 0
        → next_difficulty_v2 W timestamps cumulative_difficulties target_seconds = .ok 0)) := by
  have i1 := mul_high_ne_zero_iff (total_work (cumulative_difficulties.take W))
    (target_v1 (min timestamps.length W) target_seconds) (total_work_lt _) (target_v1_lt _ _)
  have i2 := mul_high_ne_zero_iff (total_work (cumulative_difficulties.take W))
    (target_v2 (min timestamps.length W) target_seconds) (total_work_lt _) (target_v2_lt _ _)
  refine ⟨⟨i1, fun h => ?_⟩, ⟨i2, fun h => ?_⟩⟩
  · rw [next_difficulty_v1_run W _ _ _ hlen h2 htw, if_pos (i1.1 h)]
  · rw [next_difficulty_v2_run W _ _ _ hlen h2 htw, if_pos (i2.1 h)]

/-- Instance of C7 at `total_work = 2^64 - 1` and `T = 120`. -/
theorem next_difficulty_overflow_witness :
    (([5, 3] : List Nat).length = ([0, 18446744073709551615] : List Nat).length
      ∧ 2 ≤ min ([5, 3] : List Nat).length 720
      ∧ 0 < total_work (([0, 18446744073709551615] : List Nat).take 720)
      ∧ 2 ^ 64 ≤ total_work (([0, 18446744073709551615] : List Nat).take 720)
          * target_v1 (min ([5, 3] : List Nat).length 720) 120
      ∧ 2 ^ 64 ≤ total_work (([0, 18446744073709551615] : List Nat).take 720)
          * target_v2 (min ([5, 3] : List Nat).length 720) 120)
    ∧ next_difficulty_v1 720 [5, 3] [0, 18446744073709551615] 120 = .ok 0
    ∧ next_difficulty_v2 720 [5, 3] [0, 18446744073709551615] 120 = .ok 0 :=
  ⟨by decide,
    (next_difficulty_overflow 720 [5, 3] [0, 18446744073709551615] 120 rfl (by decide)
      (by decide)).1.2 (by decide),
    (next_difficulty_overflow 720 [5, 3] [0, 18446744073709551615] 120 rfl (by decide)
      (by decide)).2.2 (by decide)⟩

/-- C8, amended: for an equal-length window of (truncated) length at least 2 with
positive `total_work`, `T ≥ 1` and no wrap in the accumulation, `next_difficulty_v1` and
`next_difficulty_v2` return 0 exactly when `total_work * target` is at least `2^64`
(the high word is non-zero) or is smaller than the divisor `weighted_timespans`; so
whenever the product fits in 64 bits and is at least the divisor, the returned
difficulty is strictly positive. -/
theorem next_difficulty_zero_iff (W : Nat) (timestamps cumulative_difficulties : List Nat)
    (target_seconds : Nat)
    (hlen : timestamps.length = cumulative_difficulties.length)
    (h2 : 2 ≤ min timestamps.length W)
    (htw : 0 < total_work (cumulative_difficulties.take W))
    (hT : 1 ≤ target_seconds) (h10 : 10 * target_seconds < 2 ^ 64)
    (hS : timespan_sum (timestamps.take W) target_seconds (min timestamps.length W)
      < 2 ^ 64) :
    (next_difficulty_v1 W timestamps cumulative_difficulties target_seconds = .ok 0
        ↔ (2 ^ 64 ≤ total_work (cumulative_difficulties.take W)
              * target_v1 (min timestamps.length W) target_seconds
            ∨ total_work (cumulative_difficulties.take W)
              * target_v1 (min timestamps.length W) target_seconds
              < floored_timespans_v1 (timestamps.take W) target_seconds))
    ∧ (next_difficulty_v2 W timestamps cumulative_difficulties target_seconds = .ok 0
        ↔ (2 ^ 64 ≤ total_work (cumulative_difficulties.take W)
              * target_v2 (min timestamps.length W) target_seconds
            ∨ total_work (cumulative_difficulties.take W)
              * target_v2 (min timestamps.length W) target_seconds
              < floored_timespans_v2 (timestamps.take W) target_seconds))
    ∧ (total_work (cumulative_difficulties.take W)
          * target_v1 (min timestamps.length W) target_seconds < 2 ^ 64
        → floored_timespans_v1 (timestamps.take W) target_seconds
          ≤ total_work (cumulative_difficulties.take W)
            * target_v1 (min timestamps.length W) target_seconds
        → ∃ d, 0 < d
          ∧ next_difficulty_v1 W timestamps cumulative_difficulties target_seconds = .ok d)
    ∧ (total_work (cumulative_difficulties.take W)
          * target_v2 (min timestamps.length W) target_seconds < 2 ^ 64
        → floored_timespans_v2 (timestamps.take W) target_seconds
          ≤ total_work (cumulative_difficulties.take W)
            * target_v2 (min timestamps.length W) target_seconds
        → ∃ d, 0 < d
          ∧ next_difficulty_v2 W timestamps cumulative_difficulties target_seconds
            = .ok d) := by
  have hl : (timestamps.take W).length = min timestamps.length W := by
    rw [List.length_take, Nat.min_comm]
  have hw := one_le_weighted (timestamps.take W) target_seconds (by omega) hT h10
    (by rw [hl]; exact hS)
  have hD1 := le_trans hw (le_floored_v1 (timestamps.take W) target_seconds)
  have hD2 := le_trans hw (le_floored_v2 (timestamps.take W) target_seconds)
  have r1 := next_difficulty_v1_run W timestamps cumulative_difficulties target_seconds
    hlen h2 htw
  have r2 := next_difficulty_v2_run W timestamps cumulative_difficulties target_seconds
    hlen h2 htw
  refine ⟨?_, ?_, ?_, ?_⟩
  · rw [r1]
    by_cases ho : 2 ^ 64 ≤ total_work (cumulative_difficulties.take W)
        * target_v1 (min timestamps.length W) target_seconds
    · rw [if_pos ho]
      exact ⟨fun _ => Or.inl ho, fun _ => rfl⟩
    · rw [if_neg ho, if_neg (by omega), ok_div_eq_zero_iff _ _ hD1]
      simp only [ho, false_or]
  · rw [r2]
    by_cases ho : 2 ^ 64 ≤ total_work (cumulative_difficulties.take W)
        * target_v2 (min timestamps.length W) target_seconds
    · rw [if_pos ho]
      exact ⟨fun _ => Or.inl ho, fun _ => rfl⟩
    · rw [if_neg ho, if_neg (by omega), ok_div_eq_zero_iff _ _ hD2]
      simp only [ho, false_or]
  · intro hP hle
    rw [r1, if_neg (by omega), if_neg (by omega)]
    exact ⟨_, Nat.div_pos hle hD1, rfl⟩
  · intro hP hle
    rw [r2, if_neg (by omega), if_neg (by omega)]
    exact ⟨_, Nat.div_pos hle hD2, rfl⟩

/-- Instance of C8 (amended) at the window `[0, 1200]`, `[0, 1]` with `T = 120`, where
the product 120 is below the divisor 1200 and the result is 0. -/
theorem next_difficulty_zero_iff_witness :
    (([0, 1200] : List Nat).length = ([0, 1] : List Nat).length
      ∧ 2 ≤ min ([0, 1200] : List Nat).length 720
      ∧ 0 < total_work (([0, 1] : List Nat).take 720)
      ∧ 1 ≤ 120 ∧ 10 * 120 < 2 ^ 64
      ∧ timespan_sum (([0, 1200] : List Nat).take 720) 120
          (min ([0, 1200] : List Nat).length 720) < 2 ^ 64)
    ∧ (next_difficulty_v1 720 [0, 1200] [0, 1] 120 = .ok 0
        ↔ (2 ^ 64 ≤ total_work (([0, 1] : List Nat).take 720)
              * target_v1 (min ([0, 1200] : List Nat).length 720) 120
            ∨ total_work (([0, 1] : List Nat).take 720)
              * target_v1 (min ([0, 1200] : List Nat).length 720) 120
              < floored_timespans_v1 (([0, 1200] : List Nat).take 720) 120)) :=
  ⟨by decide,
    (next_difficulty_zero_iff 720 [0, 1200] [0, 1] 120 rfl (by decide) (by decide)
      (by decide) (by decide) (by decide)).1⟩

/-- C8 as stated fails: on the window `[0, 1200]`, `[0, 1]` with `T = 120` (equal
lengths, `c[last] > c[first]`, `T ≥ 1`, nothing wraps) both generations return 0 although
the product `total_work * target` fits in 64 bits and its high word is zero. -/
theorem next_difficulty_zero_counterexample :
    (([0, 1200] : List Nat).length = ([0, 1] : List Nat).length
      ∧ 2 ≤ ([0, 1200] : List Nat).length
      ∧ ([0, 1] : List Nat).headD 0 < ([0, 1] : List Nat).getLastD 0
      ∧ 1 ≤ 120 ∧ 10 * 120 < 2 ^ 64 ∧ timespan_sum [0, 1200] 120 2 < 2 ^ 64
      ∧ 120 * 2 < 2 ^ 64 ∧ 99 * (2 / 2) * 120 < 2 ^ 64)
    ∧ next_difficulty_v1 720 [0, 1200] [0, 1] 120 = .ok 0
    ∧ next_difficulty_v2 720 [0, 1200] [0, 1] 120 = .ok 0
    ∧ total_work [0, 1] * target_v1 2 120 = 120
    ∧ (mul (total_work [0, 1]) (target_v1 2 120)).2 = 0
    ∧ total_work [0, 1] * target_v2 2 120 = 118
    ∧ (mul (total_work [0, 1]) (target_v2 2 120)).2 = 0 := by
  decide

/-- C9, the code at the failing input: with cumulative difficulties `[5, 3]`
(`c[last] < c[first]`) the unsigned subtraction wraps to `2^64 - 2`, the assertion
`total_work > 0` passes and both generations return a difficulty; only
`c[last] = c[first]` trips the assertion. -/
theorem total_work_assert_misses_decrease :
    total_work [5, 3] = 18446744073709551614
    ∧ next_difficulty_v1 720 [1000, 1100] [5, 3] 1 = .ok 1844674407370955161
    ∧ next_difficulty_v2 720 [1000, 1100] [5, 3] 2 = .ok 922337203685477580
    ∧ next_difficulty_v1 720 [1000, 1100] [5, 5] 1 = .error .total_work_not_positive
    ∧ next_difficulty_v2 720 [1000, 1100] [5, 5] 2 = .error .total_work_not_positive := by
  decide

/-- C10, the code on unequal lengths: when `timestamps` is longer than the window both
vectors are resized to the window size before the assertion, so the length assertion
never fails, whatever the length of `cumulative_difficulties` was; when `timestamps`
fits in the window, unequal lengths do trip the assertion. -/
theorem length_assert_after_resize (W : Nat) (timestamps cumulative_difficulties : List Nat)
    (target_seconds : Nat) :
    (W < timestamps.length →
      next_difficulty_v1 W timestamps cumulative_difficulties target_seconds
          ≠ .error .length_mismatch
        ∧ next_difficulty_v2 W timestamps cumulative_difficulties target_seconds
          ≠ .error .length_mismatch)
    ∧ (timestamps.length ≤ W → timestamps.length ≠ cumulative_difficulties.length →
      next_difficulty_v1 W timestamps cumulative_difficulties target_seconds
          = .error .length_mismatch
        ∧ next_difficulty_v2 W timestamps cumulative_difficulties target_seconds
          = .error .length_mismatch) := by
  constructor
  · intro h
    have hd : decide (timestamps.length > W) = true := by simpa using h
    constructor
    · unfold next_difficulty_v1
      simp only [hd, if_true, length_resize, ne_eq, not_true_eq_false, if_false]
      split_ifs <;> simp
    · unfold next_difficulty_v2
      simp only [hd, if_true, length_resize, ne_eq, not_true_eq_false, if_false]
      split_ifs <;> simp
  · intro h hne
    have hd : decide (timestamps.length > W) = false := by simpa using h
    constructor
    · unfold next_difficulty_v1
      simp only [hd, Bool.false_eq_true, if_false]
      rw [if_pos hne]
    · unfold next_difficulty_v2
      simp only [hd, Bool.false_eq_true, if_false]
      rw [if_pos hne]

/-- Instance of C10 at window size 2: three timestamps with two, and with one,
cumulative difficulties return a difficulty; two timestamps with three cumulative
difficulties trip the assertion. -/
theorem length_assert_after_resize_witness :
    (2 < ([1, 2, 3] : List Nat).length
      ∧ ([1, 2, 3] : List Nat).length ≠ ([0, 5] : List Nat).length
      ∧ next_difficulty_v1 2 [1, 2, 3] [0, 5] 1 = .ok 5
      ∧ next_difficulty_v2 2 [1, 2, 3] [0, 5] 2 = .ok 5
      ∧ next_difficulty_v1 2 [1, 2, 3] [7] 1 = .ok 18446744073709551609)
    ∧ (next_difficulty_v1 2 [1, 2, 3] [0, 5] 1 ≠ .error .length_mismatch
      ∧ next_difficulty_v2 2 [1, 2, 3] [0, 5] 1 ≠ .error .length_mismatch)
    ∧ (next_difficulty_v1 2 [1, 2] [0, 5, 6] 1 = .error .length_mismatch
      ∧ next_difficulty_v2 2 [1, 2] [0, 5, 6] 1 = .error .length_mismatch) :=
  ⟨by decide,
    (length_assert_after_resize 2 [1, 2, 3] [0, 5] 1).1 (by decide),
    (length_assert_after_resize 2 [1, 2] [0, 5, 6] 1).2 (by decide) (by decide)⟩

/-! ## Further lemmas -/

theorem next_difficulty_v1_take (W : Nat) (ts cs : List Nat) (T : Nat)
    (hlen : ts.length = cs.length) :
    next_difficulty_v1 W ts cs T = next_difficulty_v1 W (ts.take W) (cs.take W) T := by
  have e1 := truncate_eq_take W ts ts rfl
  have e2 := truncate_eq_take W ts cs hlen
  have hl : (ts.take W).length = (cs.take W).length := by
    rw [List.length_take, List.length_take, hlen]
  have e3 := truncate_eq_take W (ts.take W) (ts.take W) rfl
  have e4 := truncate_eq_take W (ts.take W) (cs.take W) hl
  rw [List.take_take, Nat.min_self] at e3 e4
  unfold next_difficulty_v1
  simp only [e1, e2, e3, e4]

theorem next_difficulty_v2_take (W : Nat) (ts cs : List Nat) (T : Nat)
    (hlen : ts.length = cs.length) :
    next_difficulty_v2 W ts cs T = next_difficulty_v2 W (ts.take W) (cs.take W) T := by
  have e1 := truncate_eq_take W ts ts rfl
  have e2 := truncate_eq_take W ts cs hlen
  have hl : (ts.take W).length = (cs.take W).length := by
    rw [List.length_take, List.length_take, hlen]
  have e3 := truncate_eq_take W (ts.take W) (ts.take W) rfl
  have e4 := truncate_eq_take W (ts.take W) (cs.take W) hl
  rw [List.take_take, Nat.min_self] at e3 e4
  unfold next_difficulty_v2
  simp only [e1, e2, e3, e4]

theorem hash_value_lt (swap64le : Nat → Nat) (hash : crypto.hash)
    (h0 : swap64le hash.w0 < 2 ^ 64) (h1 : swap64le hash.w1 < 2 ^ 64)
    (h2 : swap64le hash.w2 < 2 ^ 64) (h3 : swap64le hash.w3 < 2 ^ 64) :
    hash_value swap64le hash < 2 ^ 256 := by
  unfold hash_value
  omega

/-! ## The claims, continued -/

/-- C11: for equal-length sequences, in particular those longer than the window size
`W`, and every target, `next_difficulty_v1` and `next_difficulty_v2` return the same
result as on the first `W` timestamps and the first `W` cumulative difficulties only; so
two such calls whose sequences agree on the first `W` entries return the same result:
entries at index `W` and beyond never influence it. -/
theorem next_difficulty_truncation (W : Nat) (timestamps cumulative_difficulties : List Nat)
    (target_seconds : Nat)
    (hlen : timestamps.length = cumulative_difficulties.length) :
    (next_difficulty_v1 W timestamps cumulative_difficulties target_seconds
        = next_difficulty_v1 W (timestamps.take W) (cumulative_difficulties.take W)
            target_seconds
      ∧ next_difficulty_v2 W timestamps cumulative_difficulties target_seconds
        = next_difficulty_v2 W (timestamps.take W) (cumulative_difficulties.take W)
            target_seconds)
    ∧ ∀ timestamps2 cumulative_difficulties2 : List Nat,
        timestamps2.length = cumulative_difficulties2.length →
        timestamps2.take W = timestamps.take W →
        cumulative_difficulties2.take W = cumulative_difficulties.take W →
        next_difficulty_v1 W timestamps2 cumulative_difficulties2 target_seconds
            = next_difficulty_v1 W timestamps cumulative_difficulties target_seconds
          ∧ next_difficulty_v2 W timestamps2 cumulative_difficulties2 target_seconds
            = next_difficulty_v2 W timestamps cumulative_difficulties target_seconds := by
  refine ⟨⟨next_difficulty_v1_take W _ _ _ hlen, next_difficulty_v2_take W _ _ _ hlen⟩, ?_⟩
  intro t2 c2 hlen2 ht hc
  constructor
  · rw [next_difficulty_v1_take W t2 c2 _ hlen2, next_difficulty_v1_take W _ _ _ hlen, ht, hc]
  · rw [next_difficulty_v2_take W t2 c2 _ hlen2, next_difficulty_v2_take W _ _ _ hlen, ht, hc]

/-- Instance of C11 at window size 4: the documented window followed by two more
entries gives the results of the documented window. -/
theorem next_difficulty_truncation_witness :
    (([1000, 1100, 1250, 1400, 9000, 9001] : List Nat).length
        = ([0, 100, 250, 500, 70000, 90000] : List Nat).length
      ∧ 4 < ([1000, 1100, 1250, 1400, 9000, 9001] : List Nat).length
      ∧ ([1000, 1100, 1250, 1400, 9000, 9001] : List Nat).take 4 = [1000, 1100, 1250, 1400]
      ∧ ([0, 100, 250, 500, 70000, 90000] : List Nat).take 4 = [0, 100, 250, 500]
      ∧ next_difficulty_v1 4 [1000, 1100, 1250, 1400] [0, 100, 250, 500] 120 = .ok 141)
    ∧ (next_difficulty_v1 4 [1000, 1100, 1250, 1400, 9000, 9001]
          [0, 100, 250, 500, 70000, 90000] 120
        = next_difficulty_v1 4 (([1000, 1100, 1250, 1400, 9000, 9001] : List Nat).take 4)
            (([0, 100, 250, 500, 70000, 90000] : List Nat).take 4) 120
      ∧ next_difficulty_v2 4 [1000, 1100, 1250, 1400, 9000, 9001]
          [0, 100, 250, 500, 70000, 90000] 120
        = next_difficulty_v2 4 (([1000, 1100, 1250, 1400, 9000, 9001] : List Nat).take 4)
            (([0, 100, 250, 500, 70000, 90000] : List Nat).take 4) 120) :=
  ⟨by decide,
    (next_difficulty_truncation 4 [1000, 1100, 1250, 1400, 9000, 9001]
      [0, 100, 250, 500, 70000, 90000] 120 rfl).1⟩

/-- C12: `check_hash` is monotone in the difficulty: for 64-bit limbs and difficulties
`d1 ≤ d2`, if `check_hash (hash, d2)` is true then `check_hash (hash, d1)` is true. -/
theorem check_hash_monotone (swap64le : Nat → Nat) (hash : crypto.hash) (d1 d2 : Nat)
    (h0 : swap64le hash.w0 < 2 ^ 64) (h1 : swap64le hash.w1 < 2 ^ 64)
    (h2 : swap64le hash.w2 < 2 ^ 64) (h3 : swap64le hash.w3 < 2 ^ 64)
    (hd2 : d2 < 2 ^ 64) (hle : d1 ≤ d2)
    (h : check_hash swap64le hash d2 = true) :
    check_hash swap64le hash d1 = true := by
  rw [check_hash_iff swap64le hash d1 h0 h1 h2 h3 (lt_of_le_of_lt hle hd2)]
  have hh := (check_hash_iff swap64le hash d2 h0 h1 h2 h3 hd2).1 h
  exact lt_of_le_of_lt (Nat.mul_le_mul_left _ hle) hh

/-- Instance of C12 at a hash with top limb `2^61` and difficulties `5 ≤ 7`. -/
theorem check_hash_monotone_witness :
    (7 < 2 ^ 64 ∧ 5 ≤ 7
      ∧ check_hash id ⟨11, 22, 33, 2305843009213693952⟩ 7 = true)
    ∧ check_hash id ⟨11, 22, 33, 2305843009213693952⟩ 5 = true :=
  ⟨by decide,
    check_hash_monotone id ⟨11, 22, 33, 2305843009213693952⟩ 5 7 (by decide) (by decide)
      (by decide) (by decide) (by decide) (by decide) (by decide)⟩

/-- C13: for the hash whose four limbs are all zero, `check_hash` returns true for every
64-bit difficulty. -/
theorem check_hash_zero_hash (swap64le : Nat → Nat) (hash : crypto.hash) (difficulty : Nat)
    (h0 : swap64le hash.w0 = 0) (h1 : swap64le hash.w1 = 0)
    (h2 : swap64le hash.w2 = 0) (h3 : swap64le hash.w3 = 0)
    (hd : difficulty < 2 ^ 64) :
    check_hash swap64le hash difficulty = true := by
  rw [check_hash_iff swap64le hash difficulty (by omega) (by omega) (by omega) (by omega) hd]
  simp [hash_value, h0, h1, h2, h3]

/-- Instance of C13 at the largest difficulty `2^64 - 1`. -/
theorem check_hash_zero_hash_witness :
    (18446744073709551615 < 2 ^ 64)
    ∧ check_hash id ⟨0, 0, 0, 0⟩ 18446744073709551615 = true :=
  ⟨by decide,
    check_hash_zero_hash id ⟨0, 0, 0, 0⟩ 18446744073709551615 rfl rfl rfl rfl (by decide)⟩

/-- C14: for the hash whose four limbs are all `2^64 - 1` (`H = 2^256 - 1`),
`check_hash` is false for every 64-bit difficulty `d ≥ 2` and true for `d = 0` and
`d = 1`. -/
theorem check_hash_all_ones (swap64le : Nat → Nat) (hash : crypto.hash)
    (h0 : swap64le hash.w0 = 2 ^ 64 - 1) (h1 : swap64le hash.w1 = 2 ^ 64 - 1)
    (h2 : swap64le hash.w2 = 2 ^ 64 - 1) (h3 : swap64le hash.w3 = 2 ^ 64 - 1) :
    (∀ d, 2 ≤ d → d < 2 ^ 64 → check_hash swap64le hash d = false)
      ∧ check_hash swap64le hash 0 = true ∧ check_hash swap64le hash 1 = true := by
  have hH : hash_value swap64le hash = 2 ^ 256 - 1 := by
    simp only [hash_value, h0, h1, h2, h3]
    norm_num
  have key : ∀ d, d < 2 ^ 64 →
      (check_hash swap64le hash d = true ↔ (2 ^ 256 - 1) * d < 2 ^ 256) := by
    intro d hd
    rw [check_hash_iff swap64le hash d (by omega) (by omega) (by omega) (by omega) hd, hH]
  refine ⟨fun d hd2 hd => ?_, (key 0 (by norm_num)).2 (by norm_num),
    (key 1 (by norm_num)).2 (by norm_num)⟩
  cases hc : check_hash swap64le hash d
  · rfl
  · have := (key d hd).1 hc
    omega

/-- Instance of C14 at difficulty 2. -/
theorem check_hash_all_ones_witness :
    (id (crypto.hash.w0 ⟨18446744073709551615, 18446744073709551615, 18446744073709551615,
        18446744073709551615⟩) = 2 ^ 64 - 1 ∧ 2 ≤ 2 ∧ 2 < 2 ^ 64)
    ∧ check_hash id ⟨18446744073709551615, 18446744073709551615, 18446744073709551615,
        18446744073709551615⟩ 2 = false :=
  ⟨by decide,
    (check_hash_all_ones id ⟨18446744073709551615, 18446744073709551615,
      18446744073709551615, 18446744073709551615⟩ (by decide) (by decide) (by decide)
      (by decide)).1 2 (by decide) (by decide)⟩

/-- C15: for 64-bit `a`, `b` and every boolean `c`, `cadc (a, b, c)` is true exactly
when `a + b + (1 if c else 0) ≥ 2^64` over the naturals; in particular it is true when
`a + b = 2^64 - 1` and `c` is set. -/
theorem cadc_iff_carry_out (a b : Nat) (c : Bool) (ha : a < 2 ^ 64) (hb : b < 2 ^ 64) :
    (cadc a b c = true ↔ 2 ^ 64 ≤ a + b + (if c then 1 else 0))
      ∧ (a + b = 2 ^ 64 - 1 → cadc a b true = true) := by
  refine ⟨cadc_iff a b c ha hb, fun h => ?_⟩
  rw [cadc_iff a b true ha hb]
  simp only [if_true]
  omega

/-- Instance of C15 at `a = 2^64 - 1`, `b = 0` with the carry set. -/
theorem cadc_iff_carry_out_witness :
    (18446744073709551615 < 2 ^ 64 ∧ 0 < 2 ^ 64
      ∧ 18446744073709551615 + 0 = 2 ^ 64 - 1 ∧ cadc 18446744073709551615 0 false = false)
    ∧ cadc 18446744073709551615 0 true = true :=
  ⟨by decide,
    (cadc_iff_carry_out 18446744073709551615 0 true (by decide) (by decide)).2 (by decide)⟩

/-- C16: for 64-bit `a` and `b`, `cadd (a, b)` is true exactly when
`a + b > 2^64 - 1` over the naturals. -/
theorem cadd_iff_overflow (a b : Nat) (ha : a < 2 ^ 64) (hb : b < 2 ^ 64) :
    cadd a b = true ↔ a + b > 2 ^ 64 - 1 := by
  rw [cadd_iff a b ha hb]
  omega

/-- Instance of C16 at `a = 2^63`, `b = 2^63`. -/
theorem cadd_iff_overflow_witness :
    (9223372036854775808 < 2 ^ 64)
    ∧ (cadd 9223372036854775808 9223372036854775808 = true
      ↔ 9223372036854775808 + 9223372036854775808 > 2 ^ 64 - 1) :=
  ⟨by decide, cadd_iff_overflow 9223372036854775808 9223372036854775808 (by decide)
    (by decide)⟩

/-- C20: for every hash with 64-bit limbs, `check_hash (hash, 0)` and
`check_hash (hash, 1)` return true. -/
theorem check_hash_zero_one (swap64le : Nat → Nat) (hash : crypto.hash)
    (h0 : swap64le hash.w0 < 2 ^ 64) (h1 : swap64le hash.w1 < 2 ^ 64)
    (h2 : swap64le hash.w2 < 2 ^ 64) (h3 : swap64le hash.w3 < 2 ^ 64) :
    check_hash swap64le hash 0 = true ∧ check_hash swap64le hash 1 = true := by
  have hH := hash_value_lt swap64le hash h0 h1 h2 h3
  constructor
  · rw [check_hash_iff swap64le hash 0 h0 h1 h2 h3 (by norm_num)]
    omega
  · rw [check_hash_iff swap64le hash 1 h0 h1 h2 h3 (by norm_num)]
    omega

/-- Instance of C20 at the largest hash, all limbs `2^64 - 1`. -/
theorem check_hash_zero_one_witness :
    (18446744073709551615 < 2 ^ 64)
    ∧ check_hash id ⟨18446744073709551615, 18446744073709551615, 18446744073709551615,
        18446744073709551615⟩ 0 = true
    ∧ check_hash id ⟨18446744073709551615, 18446744073709551615, 18446744073709551615,
        18446744073709551615⟩ 1 = true :=
  ⟨by decide,
    check_hash_zero_one id ⟨18446744073709551615, 18446744073709551615,
      18446744073709551615, 18446744073709551615⟩ (by decide) (by decide) (by decide)
      (by decide)⟩

/-! ## Bounds on the accumulated timespans -/

theorem timespan_sum_upper (t : List Nat) (T : Nat) :
    ∀ n, 2 * timespan_sum t T (n + 1) ≤ 10 * T * ((n + 1) * n)
  | 0 => by simp [timespan_sum]
  | n + 1 => by
    have ih := timespan_sum_upper t T n
    rw [timespan_sum_succ]
    have hm : min (10 * T)
        (if t.getD n 0 ≥ t.getD (n + 1) 0 then 1 else t.getD (n + 1) 0 - t.getD n 0)
        ≤ 10 * T := Nat.min_le_left _ _
    have hx := Nat.mul_le_mul_left (n + 1) hm
    generalize (n + 1) * min (10 * T)
      (if t.getD n 0 ≥ t.getD (n + 1) 0 then 1 else t.getD (n + 1) 0 - t.getD n 0) = x at hx ⊢
    have e : 10 * T * ((n + 1 + 1) * (n + 1))
        = 10 * T * ((n + 1) * n) + 2 * ((n + 1) * (10 * T)) := by ring
    omega

theorem timespan_zero_target (t : List Nat) (i : Nat) : timespan t 0 i = 0 := by
  simp only [timespan, wrap64]
  split_ifs <;> omega

theorem weighted_zero_target (t : List Nat) : ∀ n, weighted_timespans t 0 n = 0
  | 0 => rfl
  | n + 1 => by
    have hw : weighted_timespans t 0 (n + 1)
        = wrap64 (weighted_timespans t 0 n + wrap64 ((n + 1) * timespan t 0 (n + 1))) := rfl
    rw [hw, weighted_zero_target t n, timespan_zero_target]
    rfl

theorem next_difficulty_v1_no_work (W : Nat) (ts cs : List Nat) (T : Nat)
    (hlen : ts.length = cs.length) (h2 : 2 ≤ min ts.length W)
    (htw : total_work (cs.take W) = 0) :
    next_difficulty_v1 W ts cs T = .error .total_work_not_positive := by
  have e1 := truncate_eq_take W ts ts rfl
  have e2 := truncate_eq_take W ts cs hlen
  have hl : (ts.take W).length = min ts.length W := by
    rw [List.length_take, Nat.min_comm]
  have hl2 : (cs.take W).length = min ts.length W := by
    rw [List.length_take, ← hlen, Nat.min_comm]
  unfold next_difficulty_v1
  simp only [e1, e2, hl, hl2]
  rw [if_neg (by simp), if_neg (by omega), if_pos (by rw [htw]; omega)]

theorem next_difficulty_v2_no_work (W : Nat) (ts cs : List Nat) (T : Nat)
    (hlen : ts.length = cs.length) (h2 : 2 ≤ min ts.length W)
    (htw : total_work (cs.take W) = 0) :
    next_difficulty_v2 W ts cs T = .error .total_work_not_positive := by
  have e1 := truncate_eq_take W ts ts rfl
  have e2 := truncate_eq_take W ts cs hlen
  have hl : (ts.take W).length = min ts.length W := by
    rw [List.length_take, Nat.min_comm]
  have hl2 : (cs.take W).length = min ts.length W := by
    rw [List.length_take, ← hlen, Nat.min_comm]
  unfold next_difficulty_v2
  simp only [e1, e2, hl, hl2]
  rw [if_neg (by simp), if_neg (by omega), if_pos (by rw [htw]; omega)]

theorem next_difficulty_v1_congr (W : Nat) (ts c c2 : List Nat) (T : Nat)
    (hlen : (if decide (ts.length > W) = true then resize c W else c).length
      = (if decide (ts.length > W) = true then resize c2 W else c2).length)
    (htw : total_work (if decide (ts.length > W) = true then resize c W else c)
      = total_work (if decide (ts.length > W) = true then resize c2 W else c2)) :
    next_difficulty_v1 W ts c T = next_difficulty_v1 W ts c2 T := by
  unfold next_difficulty_v1
  simp only [hlen, htw]

theorem next_difficulty_v2_congr (W : Nat) (ts c c2 : List Nat) (T : Nat)
    (hlen : (if decide (ts.length > W) = true then resize c W else c).length
      = (if decide (ts.length > W) = true then resize c2 W else c2).length)
    (htw : total_work (if decide (ts.length > W) = true then resize c W else c)
      = total_work (if decide (ts.length > W) = true then resize c2 W else c2)) :
    next_difficulty_v2 W ts c T = next_difficulty_v2 W ts c2 T := by
  unfold next_difficulty_v2
  simp only [hlen, htw]

theorem retained_eq (W : Nat) (ts v : List Nat) :
    retained W ts v = if decide (ts.length > W) = true then resize v W else v := by
  simp only [retained, decide_eq_true_eq]

theorem length_retained (W : Nat) (ts v w : List Nat) (h : v.length = w.length) :
    (retained W ts v).length = (retained W ts w).length := by
  unfold retained
  split_ifs
  · rw [length_resize, length_resize]
  · exact h

/-- C17: for a window of length `L ≥ 2` and `T ≥ 1` with `5 * T * L * (L - 1) < 2^64`,
the clamped timespan of every adjacent pair lies in `[1, 10 * T]` whatever the
timestamps are, and the accumulated `weighted_timespans` of the loop shared by v1 and v2
(before the minimum is applied) lies between `L * (L - 1) / 2` and
`10 * T * L * (L - 1) / 2`. -/
theorem weighted_timespans_bounds (timestamps : List Nat) (target_seconds : Nat)
    (h2 : 2 ≤ timestamps.length) (hT : 1 ≤ target_seconds)
    (hb : 5 * target_seconds * timestamps.length * (timestamps.length - 1) < 2 ^ 64) :
    (∀ i, 1 ≤ timespan timestamps target_seconds i
        ∧ timespan timestamps target_seconds i ≤ 10 * target_seconds)
      ∧ timestamps.length * (timestamps.length - 1) / 2
        ≤ weighted_timespans timestamps target_seconds (timestamps.length - 1)
      ∧ weighted_timespans timestamps target_seconds (timestamps.length - 1)
        ≤ 10 * target_seconds * timestamps.length * (timestamps.length - 1) / 2 := by
  obtain ⟨n, hn⟩ : ∃ n, timestamps.length = n + 1 := ⟨timestamps.length - 1, by omega⟩
  rw [hn] at hb ⊢
  simp only [Nat.add_sub_cancel] at hb ⊢
  have hn1 : 1 ≤ n := by omega
  have hprod : 2 ≤ (n + 1) * n := by
    have h21 : 2 * 1 ≤ (n + 1) * n := Nat.mul_le_mul (by omega) hn1
    omega
  have e5 : 5 * target_seconds * (n + 1) * n = 5 * target_seconds * ((n + 1) * n) := by ring
  have e10 : 10 * target_seconds * (n + 1) * n = 2 * (5 * target_seconds * ((n + 1) * n)) := by
    ring
  have e10b : 10 * target_seconds * ((n + 1) * n) = 2 * (5 * target_seconds * ((n + 1) * n)) := by
    ring
  have hge : 5 * target_seconds * 2 ≤ 5 * target_seconds * ((n + 1) * n) :=
    Nat.mul_le_mul_left _ hprod
  have h10 : 10 * target_seconds < 2 ^ 64 := by omega
  have hup := timespan_sum_upper timestamps target_seconds n
  have hlo := timespan_sum_lower timestamps target_seconds hT n
  have hS : timespan_sum timestamps target_seconds (n + 1) < 2 ^ 64 := by omega
  rw [weighted_timespans_eq_sum timestamps target_seconds h10 n hS, e10]
  refine ⟨fun i => ?_, ?_, ?_⟩
  · rw [timespan_eq_min timestamps target_seconds i h10]
    split_ifs <;> omega
  · omega
  · omega

/-- Instance of C17 at the documented window with `T = 120`, where the accumulated
value is 850. -/
theorem weighted_timespans_bounds_witness :
    (2 ≤ ([1000, 1100, 1250, 1400] : List Nat).length ∧ 1 ≤ 120
      ∧ 5 * 120 * ([1000, 1100, 1250, 1400] : List Nat).length
          * (([1000, 1100, 1250, 1400] : List Nat).length - 1) < 2 ^ 64
      ∧ weighted_timespans [1000, 1100, 1250, 1400] 120 3 = 850)
    ∧ ([1000, 1100, 1250, 1400] : List Nat).length
          * (([1000, 1100, 1250, 1400] : List Nat).length - 1) / 2
        ≤ weighted_timespans [1000, 1100, 1250, 1400] 120
            (([1000, 1100, 1250, 1400] : List Nat).length - 1)
    ∧ weighted_timespans [1000, 1100, 1250, 1400] 120
          (([1000, 1100, 1250, 1400] : List Nat).length - 1)
        ≤ 10 * 120 * ([1000, 1100, 1250, 1400] : List Nat).length
            * (([1000, 1100, 1250, 1400] : List Nat).length - 1) / 2 :=
  ⟨by decide,
    (weighted_timespans_bounds [1000, 1100, 1250, 1400] 120 (by decide) (by decide)
      (by decide)).2⟩

/-- C18: for an equal-length window of truncated length at least 2 and `T ≥ 1` with no
64-bit wrap in the accumulation, the divisor `weighted_timespans` (after the minimum is
applied) is at least 1 in v1 and in v2, and neither function ends in a division by zero;
with `T = 0` every timespan is clamped to 0 and the divisor is 0. -/
theorem next_difficulty_divisor_pos (W : Nat) (timestamps cumulative_difficulties : List Nat)
    (target_seconds : Nat)
    (hlen : timestamps.length = cumulative_difficulties.length)
    (h2 : 2 ≤ min timestamps.length W)
    (hT : 1 ≤ target_seconds) (h10 : 10 * target_seconds < 2 ^ 64)
    (hS : timespan_sum (timestamps.take W) target_seconds (min timestamps.length W)
      < 2 ^ 64) :
    (1 ≤ floored_timespans_v1 (timestamps.take W) target_seconds
      ∧ 1 ≤ floored_timespans_v2 (timestamps.take W) target_seconds)
    ∧ (next_difficulty_v1 W timestamps cumulative_difficulties target_seconds
        ≠ .error .division_by_zero
      ∧ next_difficulty_v2 W timestamps cumulative_difficulties target_seconds
        ≠ .error .division_by_zero)
    ∧ ((∀ i, timespan (timestamps.take W) 0 i = 0)
      ∧ floored_timespans_v1 (timestamps.take W) 0 = 0
      ∧ floored_timespans_v2 (timestamps.take W) 0 = 0) := by
  have hl : (timestamps.take W).length = min timestamps.length W := by
    rw [List.length_take, Nat.min_comm]
  have hw := one_le_weighted (timestamps.take W) target_seconds (by omega) hT h10
    (by rw [hl]; exact hS)
  have hD1 := le_trans hw (le_floored_v1 (timestamps.take W) target_seconds)
  have hD2 := le_trans hw (le_floored_v2 (timestamps.take W) target_seconds)
  refine ⟨⟨hD1, hD2⟩, ⟨?_, ?_⟩, timespan_zero_target _, ?_, ?_⟩
  · rcases Nat.eq_zero_or_pos (total_work (cumulative_difficulties.take W)) with h0 | hp
    · rw [next_difficulty_v1_no_work W _ _ _ hlen h2 h0]
      simp
    · rw [next_difficulty_v1_run W _ _ _ hlen h2 hp, if_neg (by omega : ¬ _ = 0)]
      split_ifs <;> simp
  · rcases Nat.eq_zero_or_pos (total_work (cumulative_difficulties.take W)) with h0 | hp
    · rw [next_difficulty_v2_no_work W _ _ _ hlen h2 h0]
      simp
    · rw [next_difficulty_v2_run W _ _ _ hlen h2 hp, if_neg (by omega : ¬ _ = 0)]
      split_ifs <;> simp
  · simp [floored_timespans_v1, weighted_zero_target, minimum_timespan_v1, wrap64]
  · simp [floored_timespans_v2, weighted_zero_target, minimum_timespan_v2, wrap64]

/-- Instance of C18 at the documented window with `T = 120`. -/
theorem next_difficulty_divisor_pos_witness :
    (([1000, 1100, 1250, 1400] : List Nat).length = ([0, 100, 250, 500] : List Nat).length
      ∧ 2 ≤ min ([1000, 1100, 1250, 1400] : List Nat).length 720
      ∧ 1 ≤ 120 ∧ 10 * 120 < 2 ^ 64
      ∧ timespan_sum (([1000, 1100, 1250, 1400] : List Nat).take 720) 120
          (min ([1000, 1100, 1250, 1400] : List Nat).length 720) < 2 ^ 64
      ∧ floored_timespans_v1 (([1000, 1100, 1250, 1400] : List Nat).take 720) 120 = 850)
    ∧ (1 ≤ floored_timespans_v1 (([1000, 1100, 1250, 1400] : List Nat).take 720) 120
      ∧ 1 ≤ floored_timespans_v2 (([1000, 1100, 1250, 1400] : List Nat).take 720) 120) :=
  ⟨by decide,
    (next_difficulty_divisor_pos 720 [1000, 1100, 1250, 1400] [0, 100, 250, 500] 120 rfl
      (by decide) (by decide) (by decide) (by decide)).1⟩

/-- C19: the result of `next_difficulty_v1` and `next_difficulty_v2` depends on the
cumulative difficulties only through their length and their first and last retained
entries: two cumulative-difficulty sequences of equal length whose retained vectors have
the same first and the same last entry give the same result, for the same timestamps and
target, whatever their interior entries are. -/
theorem next_difficulty_first_last (W : Nat) (timestamps c c2 : List Nat)
    (target_seconds : Nat)
    (hlen : c.length = c2.length)
    (hfirst : (retained W timestamps c).headD 0 = (retained W timestamps c2).headD 0)
    (hlast : (retained W timestamps c).getLastD 0 = (retained W timestamps c2).getLastD 0) :
    next_difficulty_v1 W timestamps c target_seconds
        = next_difficulty_v1 W timestamps c2 target_seconds
      ∧ next_difficulty_v2 W timestamps c target_seconds
        = next_difficulty_v2 W timestamps c2 target_seconds := by
  have hl := length_retained W timestamps c c2 hlen
  have htw : total_work (retained W timestamps c) = total_work (retained W timestamps c2) := by
    unfold total_work
    rw [hfirst, hlast]
  rw [retained_eq, retained_eq] at hl htw
  exact ⟨next_difficulty_v1_congr W timestamps c c2 target_seconds hl htw,
    next_difficulty_v2_congr W timestamps c c2 target_seconds hl htw⟩

/-- Instance of C19 at the documented window: replacing the interior cumulative
difficulties `100, 250` by the non-increasing `900, 7` leaves the result 141. -/
theorem next_difficulty_first_last_witness :
    (([0, 100, 250, 500] : List Nat).length = ([0, 900, 7, 500] : List Nat).length
      ∧ retained 720 [1000, 1100, 1250, 1400] [0, 900, 7, 500] = [0, 900, 7, 500]
      ∧ next_difficulty_v1 720 [1000, 1100, 1250, 1400] [0, 900, 7, 500] 120 = .ok 141)
    ∧ next_difficulty_v1 720 [1000, 1100, 1250, 1400] [0, 100, 250, 500] 120
        = next_difficulty_v1 720 [1000, 1100, 1250, 1400] [0, 900, 7, 500] 120
    ∧ next_difficulty_v2 720 [1000, 1100, 1250, 1400] [0, 100, 250, 500] 120
        = next_difficulty_v2 720 [1000, 1100, 1250, 1400] [0, 900, 7, 500] 120 :=
  ⟨by decide,
    next_difficulty_first_last 720 [1000, 1100, 1250, 1400] [0, 100, 250, 500]
      [0, 900, 7, 500] 120 rfl (by decide) (by decide)⟩

end cryptonote
